import Mathlib

/-!
Shallow embedding of the streaming acoustic-analysis pipeline of the
CLAP-APP repository (src/src/App.tsx, the version of the component that
maintains `audioBufferRef`, `volumeHistoryRef`, `spectrumSnapshotsRef`,
`detections`, `spectrumData` and the `startListening` / `stopListening` /
`processAudioChunk` handlers).

Audio samples are modelled as rationals (the JS numbers carrying raw
samples), spectrum snapshot bins as naturals (the `Uint8Array` returned by
`getByteFrequencyData`), and the RMS volume values as reals (their
computation takes a square root).  The session controller is modelled as a
step function on an explicit state record, driven by events: the mount-time
model loader, a start request, one audio-processor callback, and a stop
request.  Callback-time inputs that the code reads from the environment
(the burst of samples, the outcome of `Math.random() < 0.1`, the analyser
snapshot, and the classifier's label/score output) are carried by the
callback event.
-/

namespace ClapApp

/-- Samples per classification frame: 0.975 s at 16 kHz (App.tsx:1528-1529,
`if (audioBufferRef.current.length >= 15600)`). -/
def frameSize : ℕ := 15600

/-- One audio callback of the frame accumulator, restricted to its buffer
bookkeeping: append the burst to the buffer (App.tsx:1522-1526); if at least
`frameSize` samples accrued, `processAudioChunk` extracts the 15,600-sample
prefix as a frame (App.tsx:1568) and drops it from the buffer
(App.tsx:1581).  Note the extraction runs at most once per callback: the
source guards it with a single `if`, not a loop (App.tsx:1529-1532). -/
def accumStep (acc : List ℚ × List (List ℚ)) (burst : List ℚ) :
    List ℚ × List (List ℚ) :=
  let buf := acc.1 ++ burst
  if frameSize ≤ buf.length then (buf.drop frameSize, acc.2 ++ [buf.take frameSize])
  else (buf, acc.2)

/-- Feed a sequence of sample bursts through the accumulator, starting from
an empty buffer; returns the final buffer and the extracted frames in
arrival order. -/
def runBursts (bursts : List (List ℚ)) : List ℚ × List (List ℚ) :=
  bursts.foldl accumStep ([], [])

/-- One classifier detection as kept in the `detections` React state
(App.tsx:5-10); the environment-generated `id` and `timestamp` fields are
omitted, they are never read by the logic modelled here. -/
structure Detection where
  label : String
  score : ℚ
  deriving DecidableEq

/-- The `setDetections` update of `processAudioChunk` (App.tsx:1630-1639):
a non-empty batch of new detections is prepended to the history and the
result truncated to the 20 most recent; an empty batch leaves the history
untouched (the `setDetections` call sits under
`if (topPredictions.length > 0)`). -/
def ingestDetections (batch hist : List Detection) : List Detection :=
  if batch.isEmpty then hist else (batch ++ hist).take 20

/-- Ranking and filtering of the classifier's raw label/score pairs
(App.tsx:1610-1628): sort by descending score (the stable
`sort((a, b) => b.score - a.score)`), keep scores strictly above 0.2, keep
at most the top 5. -/
def topPredictions (preds : List (String × ℚ)) : List Detection :=
  (((List.insertionSort (fun a b : String × ℚ => b.2 ≤ a.2) preds).filter
      (fun p => 1 / 5 < p.2)).take 5).map
    (fun p => { label := p.1, score := p.2 })

/-- One capture attempt of the spectrum sampler (App.tsx:1514-1519): the
passed snapshot is stored only while fewer than 50 snapshots are held and
the random draw accepted (`Math.random() < 0.1`, carried here as the
boolean `accept`); otherwise the attempt is silently dropped. -/
def maybeCapture (snaps : List (List ℕ)) (accept : Bool) (snap : List ℕ) :
    List (List ℕ) :=
  if snaps.length < 50 ∧ accept = true then snaps ++ [snap] else snaps

/-- Element-wise average of the captured snapshots, truncated to the first
128 bins (App.tsx:1969-1983); the bin count is read off the first snapshot. -/
def averageSpectrum (snaps : List (List ℕ)) : List ℚ :=
  match snaps with
  | [] => []
  | s0 :: _ =>
    ((List.range s0.length).map
      (fun i => (snaps.map (fun s => (s.getD i 0 : ℚ))).sum / (snaps.length : ℚ))).take 128

/-- The five-element noise metrics array computed at `stopListening`
(App.tsx:2004-2023): `[avgVolume, peakVolume, volumeRange, silencePercent,
noiseFloor]`, or absent when the volume history is empty. -/
structure NoiseMetrics (α : Type) where
  avgVolume : α
  peakVolume : α
  volumeRange : α
  silencePercent : α
  noiseFloor : α
  deriving DecidableEq

/-- Maximum of a volume history, `Math.max(...volumes)` on a non-empty
array (App.tsx:2008); 0 on the empty list, which the source never reaches. -/
def maxVolume {α : Type} [LinearOrderedField α] : List α → α
  | [] => 0
  | v :: vs => vs.foldl max v

/-- Minimum of a volume history, `Math.min(...volumes)` on a non-empty
array (App.tsx:2009); 0 on the empty list, which the source never reaches. -/
def minVolume {α : Type} [LinearOrderedField α] : List α → α
  | [] => 0
  | v :: vs => vs.foldl min v

/-- The noise metrics calculation of `stopListening` (App.tsx:2004-2023),
generic in the ordered field modelling the JS numbers: average, peak,
range = peak - min, silence percentage with the strict `v < 0.01` test,
and noise floor = mean of the lowest `⌈length * 0.1⌉` samples of the
ascending sort (`(length + 9) / 10` is `⌈length / 10⌉` on naturals).
Returns `none` exactly when the history is empty (`volumes.length > 0`
guard at App.tsx:2006). -/
def noiseMetrics {α : Type} [LinearOrderedField α] (volumes : List α) :
    Option (NoiseMetrics α) :=
  match volumes with
  | [] => none
  | v :: vs =>
    let vol := v :: vs
    let avgVolume := vol.sum / (vol.length : α)
    let peakVolume := maxVolume vol
    let minV := minVolume vol
    let volumeRange := peakVolume - minV
    let silentSamples := (vol.filter (fun x => x < 1 / 100)).length
    let silencePercent := (silentSamples : α) / (vol.length : α) * 100
    let sortedVolumes := List.insertionSort (· ≤ ·) vol
    let noiseFloorSamples := sortedVolumes.take ((vol.length + 9) / 10)
    let noiseFloor := noiseFloorSamples.sum / (noiseFloorSamples.length : α)
    some ⟨avgVolume, peakVolume, volumeRange, silencePercent, noiseFloor⟩

/-- RMS of a frame (App.tsx:1570-1575): the square root of the mean of the
squared samples; the sum and mean are exact rational arithmetic, the square
root lands in the reals. -/
noncomputable def rms (frame : List ℚ) : ℝ :=
  Real.sqrt (((frame.map (fun x => x * x)).sum / (frame.length : ℚ) : ℚ) : ℝ)

/-- The summary text produced at stop (App.tsx:1749-1753): with an empty
detection history `generateSummary` short-circuits to the fallback
sentence; otherwise it assembles the full session summary, whose text
depends on classifier data and is abstracted here as the `full` argument. -/
def generateSummary (detections : List Detection) (full : String) : String :=
  if detections.length = 0 then "No sounds were detected during this listening session."
  else full

/-- The four values of the `status` React state (App.tsx:12). -/
inductive Status
  | idle
  | loading
  | listening
  | error
  deriving DecidableEq

/-- The controller state: the `status`/`detections`/`spectrumData` React
states, the model readiness (`model` non-null, `classNames` loaded), the
error message, and the `audioBufferRef`/`volumeHistoryRef`/
`spectrumSnapshotsRef`/`isListeningRef` mutable refs of App.tsx:1255-1276.
`lastMetrics` records the metrics array computed by the latest stop
(App.tsx:2004-2023), and `frames` is a ghost counter of frames processed
since the session started (one per `processAudioChunk` extraction). -/
structure AppState where
  status : Status
  modelLoaded : Bool
  classNames : List String
  errorMsg : String
  audioBuffer : List ℚ
  volumeHistory : List ℝ
  snapshots : List (List ℕ)
  spectrumData : List ℚ
  detections : List Detection
  lastMetrics : Option (NoiseMetrics ℝ)
  isListening : Bool
  frames : ℕ

/-- The state at mount: status idle, nothing loaded, every buffer empty
(App.tsx:1255-1276 initialisers). -/
def initState : AppState :=
  ⟨Status.idle, false, [], "", [], [], [], [], [], none, false, 0⟩

/-- The events driving the controller.  `loadModel` is the mount-time
loader effect with the success of the model fetch and of the class-name
fetch, and the parsed names; `startRequest` carries the outcome of the
microphone acquisition; `audioCallback` is one `onaudioprocess` invocation
carrying the burst, the outcome of the `Math.random() < 0.1` draw, the
analyser snapshot, and the classifier output for a frame completed in this
callback; `stopRequest` is a press of the stop button. -/
inductive Event
  | loadModel (modelOk : Bool) (namesOk : Bool) (names : List String)
  | startRequest (micOk : Bool)
  | audioCallback (burst : List ℚ) (accept : Bool) (snapshot : List ℕ)
      (preds : List (String × ℚ))
  | stopRequest

/-- One step of the session controller.

* `loadModel` (App.tsx:1279-1312): runs only outside a session (the effect
  fires once at mount); sets status loading, then either loads the model
  and names and returns to idle, or records the load error.  A names-fetch
  failure after a successful model fetch leaves the model set with an empty
  name list.
* `startRequest` (App.tsx:1462-1557): ignored while the start button is
  disabled (`status === 'loading' || status === 'listening' || !model`,
  App.tsx:2108).  With the model or names missing it only sets the error
  message and returns (App.tsx:1463-1466).  Otherwise it enters loading,
  clears the error, the displayed spectrum and the snapshot store
  (App.tsx:1469-1472), and on microphone success enters listening
  (App.tsx:1539-1544); on failure it records the error (App.tsx:1553-1557).
* `audioCallback` (App.tsx:1504-1533 with `processAudioChunk`,
  App.tsx:1560-1643): fires only while the processor is connected (during a
  session).  A snapshot may be captured only when the burst has a sample
  with `|s| > 0.01` (App.tsx:1509-1519); the burst is appended to the
  buffer, and if at least `frameSize` samples accrued one frame is
  extracted: its RMS is appended to the volume history (App.tsx:1568-1578),
  the buffer loses the frame (App.tsx:1581), and the classifier output is
  filtered, ranked and ingested into the detection history
  (App.tsx:1610-1639).
* `stopRequest` (App.tsx:1960-2062): ignored while the stop button is
  disabled (`status !== 'listening'`, App.tsx:2115).  Averages and
  publishes the captured snapshots if any (App.tsx:1965-1994), computes the
  noise metrics from the volume history (App.tsx:2004-2023), clears the
  volume history and the audio buffer (App.tsx:2029, 2057), and returns to
  idle (App.tsx:2061).  The detection history is not cleared anywhere. -/
noncomputable def step (s : AppState) : Event → AppState
  | Event.loadModel modelOk namesOk names =>
    if s.isListening then s
    else
      let s1 := { s with status := Status.loading, errorMsg := "" }
      if modelOk then
        let s2 := { s1 with modelLoaded := true }
        if namesOk then { s2 with classNames := names, status := Status.idle }
        else { s2 with
                errorMsg := "Failed to load YAMNet model. Please refresh the page."
                status := Status.error }
      else { s1 with
              errorMsg := "Failed to load YAMNet model. Please refresh the page."
              status := Status.error }
  | Event.startRequest micOk =>
    if s.status = Status.loading ∨ s.status = Status.listening ∨ s.modelLoaded = false then s
    else if s.modelLoaded = false ∨ s.classNames = [] then
      { s with errorMsg := "Model not loaded yet" }
    else
      let s1 := { s with
        status := Status.loading
        errorMsg := ""
        spectrumData := []
        snapshots := [] }
      if micOk then
        { s1 with status := Status.listening, isListening := true, frames := 0 }
      else
        { s1 with
            errorMsg := "Failed to access microphone. Please check permissions."
            status := Status.error }
  | Event.audioCallback burst accept snapshot preds =>
    if s.isListening = false then s
    else
      let hasSound := burst.any (fun x => 1 / 100 < |x|)
      let snaps := if hasSound = true ∧ s.snapshots.length < 50 ∧ accept = true
        then s.snapshots ++ [snapshot] else s.snapshots
      let buf := s.audioBuffer ++ burst
      if frameSize ≤ buf.length then
        if s.modelLoaded = true ∧ s.classNames ≠ [] ∧ s.isListening = true then
          { s with
            snapshots := snaps
            audioBuffer := buf.drop frameSize
            volumeHistory := s.volumeHistory ++ [rms (buf.take frameSize)]
            detections := ingestDetections (topPredictions preds) s.detections
            frames := s.frames + 1 }
        else { s with snapshots := snaps, audioBuffer := buf }
      else { s with snapshots := snaps, audioBuffer := buf }
  | Event.stopRequest =>
    if s.status ≠ Status.listening then s
    else
      { s with
          isListening := false
          spectrumData := if s.snapshots.isEmpty then s.spectrumData
            else averageSpectrum s.snapshots
          snapshots := []
          lastMetrics := noiseMetrics s.volumeHistory
          volumeHistory := []
          audioBuffer := []
          status := Status.idle }

/-- Run a sequence of events from the mount state. -/
noncomputable def runEvents (events : List Event) : AppState :=
  events.foldl step initState

/-- The environment-supplied data of one audio callback. -/
structure CallData where
  burst : List ℚ
  accept : Bool
  snapshot : List ℕ
  preds : List (String × ℚ)

/-- The callback event carrying this data. -/
def CallData.toEvent (c : CallData) : Event :=
  Event.audioCallback c.burst c.accept c.snapshot c.preds

/-- State reached by a fresh single session after a successful model load,
a successful start, and the given audio callbacks, before the stop. -/
noncomputable def runSessionPre (names : List String) (calls : List CallData) : AppState :=
  calls.foldl (fun st c => step st c.toEvent)
    (step (step initState (Event.loadModel true true names)) (Event.startRequest true))

/-- State of that session after the stop request. -/
noncomputable def runSession (names : List String) (calls : List CallData) : AppState :=
  step (runSessionPre names calls) Event.stopRequest

/-- State reached by a session started by a successful start request from
an arbitrary prior state `pre`, after the given audio callbacks, before the
stop. -/
noncomputable def runSessionFrom (pre : AppState) (calls : List CallData) : AppState :=
  calls.foldl (fun st c => step st c.toEvent) (step pre (Event.startRequest true))

/-- State of that session after the stop request. -/
noncomputable def runSessionFromStop (pre : AppState) (calls : List CallData) : AppState :=
  step (runSessionFrom pre calls) Event.stopRequest

/-- Invariant holding in every reachable state: the `isListening` ref agrees
with the `listening` status, and outside a session the audio buffer and the
volume history are empty (they are cleared by `stopListening`,
App.tsx:2029 and 2057, and both start empty). -/
def ReachInv (s : AppState) : Prop :=
  (s.isListening = true ↔ s.status = Status.listening)
  ∧ (s.isListening = false → s.audioBuffer = [] ∧ s.volumeHistory = [])

/-- Invariant holding throughout a running session started with loaded
class names: listening status, loaded model, cleared displayed spectrum,
one volume sample per processed frame, and no detections while no frame
has been processed. -/
def SessionInv (names : List String) (s : AppState) : Prop :=
  s.status = Status.listening ∧ s.isListening = true ∧ s.modelLoaded = true
  ∧ s.classNames = names ∧ s.spectrumData = []
  ∧ s.volumeHistory.length = s.frames
  ∧ (s.frames = 0 → s.detections = [])

/-! Helper lemmas about single controller steps. -/

lemma step_load_ok (s : AppState) (names : List String) (h : s.isListening = false) :
    step s (Event.loadModel true true names)
      = { s with status := Status.idle, modelLoaded := true, classNames := names,
                 errorMsg := "" } := by
  simp [step, h]

lemma step_start_ok (s : AppState) (h1 : s.status ≠ Status.loading)
    (h2 : s.status ≠ Status.listening) (hm : s.modelLoaded = true)
    (hc : s.classNames ≠ []) :
    step s (Event.startRequest true)
      = { s with status := Status.listening, errorMsg := "", spectrumData := [],
                 snapshots := [], isListening := true, frames := 0 } := by
  simp [step, h1, h2, hm, hc]

lemma step_callback_chunk (s : AppState) (burst : List ℚ) (snap : List ℕ)
    (preds : List (String × ℚ)) (hl : s.isListening = true) (hm : s.modelLoaded = true)
    (hc : s.classNames ≠ []) (hlen : frameSize ≤ (s.audioBuffer ++ burst).length) :
    step s (Event.audioCallback burst false snap preds)
      = { s with audioBuffer := (s.audioBuffer ++ burst).drop frameSize,
                 volumeHistory := s.volumeHistory ++ [rms ((s.audioBuffer ++ burst).take frameSize)],
                 detections := ingestDetections (topPredictions preds) s.detections,
                 frames := s.frames + 1 } := by
  have hlen2 : frameSize ≤ s.audioBuffer.length + burst.length := by
    simpa using hlen
  simp [step, hl, hm, hc, hlen2]

lemma step_stop_apply (s : AppState) (h : s.status = Status.listening) :
    step s Event.stopRequest
      = { s with isListening := false,
                 spectrumData := if s.snapshots.isEmpty then s.spectrumData
                   else averageSpectrum s.snapshots,
                 snapshots := [], lastMetrics := noiseMetrics s.volumeHistory,
                 volumeHistory := [], audioBuffer := [], status := Status.idle } := by
  simp [step, h]

/-! Frame accumulator: the conservation invariant behind claim C1. -/

lemma accumStep_flatten :
    ∀ (bursts : List (List ℚ)) (acc : List ℚ × List (List ℚ)),
    acc.1.length < frameSize →
    (∀ b ∈ bursts, b.length ≤ frameSize) →
    (bursts.foldl accumStep acc).1.length < frameSize ∧
    (bursts.foldl accumStep acc).2.flatten ++ (bursts.foldl accumStep acc).1
      = acc.2.flatten ++ (acc.1 ++ bursts.flatten) ∧
    (∀ f ∈ (bursts.foldl accumStep acc).2, f ∈ acc.2 ∨ f.length = frameSize)
  | [], acc, h, _ => by
    refine ⟨h, by simp, fun f hf => Or.inl hf⟩
  | b :: bs, acc, h, hb => by
    have hble : b.length ≤ frameSize := hb b (List.mem_cons_self b bs)
    have hrest : ∀ x ∈ bs, x.length ≤ frameSize := fun x hx => hb x (List.mem_cons_of_mem b hx)
    have hstep : (accumStep acc b).1.length < frameSize ∧
        (accumStep acc b).2.flatten ++ (accumStep acc b).1
          = acc.2.flatten ++ (acc.1 ++ b) ∧
        (∀ f ∈ (accumStep acc b).2, f ∈ acc.2 ∨ f.length = frameSize) := by
      unfold accumStep
      by_cases hc : frameSize ≤ (acc.1 ++ b).length
      · rw [if_pos hc]
        refine ⟨?_, ?_, ?_⟩
        · simp only [List.length_drop]
          rw [List.length_append] at hc ⊢
          omega
        · simp only [List.flatten_append, List.flatten_cons, List.flatten_nil,
            List.append_nil, List.append_assoc]
          rw [List.take_append_drop]
        · intro f hf
          rcases List.mem_append.mp hf with h1 | h2
          · exact Or.inl h1
          · right
            rw [List.mem_singleton.mp h2, List.length_take]
            exact min_eq_left hc
      · rw [if_neg hc]
        push_neg at hc
        exact ⟨hc, rfl, fun f hf => Or.inl hf⟩
    have ih := accumStep_flatten bs (accumStep acc b) hstep.1 hrest
    refine ⟨ih.1, ?_, ?_⟩
    · rw [List.foldl_cons, ih.2.1, ← List.append_assoc, hstep.2.1]
      simp [List.flatten_cons, List.append_assoc]
    · intro f hf
      rw [List.foldl_cons] at hf
      rcases ih.2.2 f hf with h1 | h2
      · exact hstep.2.2 f h1
      · exact Or.inr h2

lemma flatten_length_const {α : Type} (n : ℕ) :
    ∀ (fs : List (List α)), (∀ f ∈ fs, f.length = n) → fs.flatten.length = fs.length * n
  | [], _ => by simp
  | f :: fs, h => by
    rw [List.flatten_cons, List.length_append, h f (List.mem_cons_self f fs),
      flatten_length_const n fs (fun x hx => h x (List.mem_cons_of_mem f hx)),
      List.length_cons]
    ring

/-- C1 (amended): for bursts of positive lengths each at most one frame
(15,600 samples), the accumulator yields exactly `⌊total / 15600⌋` frames of
exactly 15,600 samples each, in arrival order from the front of the buffer,
and leaves exactly `total mod 15600` samples buffered.  The restriction to
bursts no longer than a frame is forced by the code: extraction runs at
most once per callback (a single `if`, App.tsx:1529-1532), so an oversized
burst leaves a full frame stranded in the buffer (see the counterexample). -/
theorem C1_theorem (bursts : List (List ℚ))
    (hpos : ∀ b ∈ bursts, 0 < b.length ∧ b.length ≤ frameSize)
    (htot : frameSize ≤ bursts.flatten.length) :
    (runBursts bursts).2.length = bursts.flatten.length / frameSize
    ∧ (∀ f ∈ (runBursts bursts).2, f.length = frameSize)
    ∧ (runBursts bursts).1.length = bursts.flatten.length % frameSize
    ∧ (runBursts bursts).2.flatten ++ (runBursts bursts).1 = bursts.flatten := by
  have hinv := accumStep_flatten bursts ([], []) (by simp [frameSize])
    (fun b hb => (hpos b hb).2)
  have hflat : (runBursts bursts).2.flatten ++ (runBursts bursts).1 = bursts.flatten := by
    have := hinv.2.1
    simpa [runBursts] using this
  have hall : ∀ f ∈ (runBursts bursts).2, f.length = frameSize := by
    intro f hf
    rcases hinv.2.2 f hf with h1 | h2
    · exact absurd h1 (List.not_mem_nil f)
    · exact h2
  have hlen : (runBursts bursts).2.length * frameSize + (runBursts bursts).1.length
      = bursts.flatten.length := by
    rw [← hflat, List.length_append, flatten_length_const frameSize _ hall]
  have hbuf : (runBursts bursts).1.length < frameSize := hinv.1
  have hdm := (Nat.div_mod_unique (a := bursts.flatten.length) (b := frameSize)
    (c := (runBursts bursts).1.length) (d := (runBursts bursts).2.length)
    (by simp [frameSize])).mpr ⟨by simp only [frameSize] at hlen ⊢; omega, hbuf⟩
  exact ⟨hdm.1.symm, hall, hdm.2.symm, hflat⟩

/-- C1 witness: the spec's own end-to-end scenario, three bursts of 6,000
samples (18,000 total) giving exactly one 15,600-sample frame with 2,400
samples left buffered. -/
theorem C1_witness :
    (runBursts [List.replicate 6000 (0 : ℚ), List.replicate 6000 0,
        List.replicate 6000 0]).2.length
      = ([List.replicate 6000 (0 : ℚ), List.replicate 6000 0,
          List.replicate 6000 0] : List (List ℚ)).flatten.length / frameSize
    ∧ (∀ f ∈ (runBursts [List.replicate 6000 (0 : ℚ), List.replicate 6000 0,
          List.replicate 6000 0]).2, f.length = frameSize)
    ∧ (runBursts [List.replicate 6000 (0 : ℚ), List.replicate 6000 0,
          List.replicate 6000 0]).1.length
        = ([List.replicate 6000 (0 : ℚ), List.replicate 6000 0,
            List.replicate 6000 0] : List (List ℚ)).flatten.length % frameSize
    ∧ (runBursts [List.replicate 6000 (0 : ℚ), List.replicate 6000 0,
          List.replicate 6000 0]).2.flatten
        ++ (runBursts [List.replicate 6000 (0 : ℚ), List.replicate 6000 0,
            List.replicate 6000 0]).1
      = ([List.replicate 6000 (0 : ℚ), List.replicate 6000 0,
          List.replicate 6000 0] : List (List ℚ)).flatten :=
  C1_theorem [List.replicate 6000 0, List.replicate 6000 0, List.replicate 6000 0]
    (by simp [-List.reduceReplicate, frameSize])
    (by simp [-List.reduceReplicate, frameSize])

/-- C1 counterexample: a single burst of 31,200 samples (positive length,
total at least 15,600).  The claim as stated demands `31200 / 15600 = 2`
frames and `31200 mod 15600 = 0` samples left, but one callback extracts at
most one frame: the code yields 1 frame and leaves 15,600 samples buffered. -/
theorem C1_counterexample :
    (runBursts [List.replicate 31200 (0 : ℚ)]).2.length = 1
    ∧ (runBursts [List.replicate 31200 (0 : ℚ)]).1.length = 15600
    ∧ (List.replicate 31200 (0 : ℚ)).length / frameSize = 2
    ∧ (List.replicate 31200 (0 : ℚ)).length % frameSize = 0 := by
  refine ⟨?_, ?_, ?_, ?_⟩ <;>
    simp [-List.reduceReplicate, runBursts, accumStep, frameSize,
      List.take_replicate, List.drop_replicate]

/-! Detection history: claim C2. -/

lemma ingest_length_le (bb acc : List Detection) (h : acc.length ≤ 20) :
    (ingestDetections bb acc).length ≤ 20 := by
  unfold ingestDetections
  split
  · exact h
  · simp only [List.length_take]
    exact le_trans (min_le_left _ _) (le_refl 20)

lemma foldl_ingest_le :
    ∀ (batches : List (List Detection)) (acc : List Detection), acc.length ≤ 20 →
      (batches.foldl (fun h b => ingestDetections b h) acc).length ≤ 20
  | [], _, h => h
  | b :: bs, acc, h => foldl_ingest_le bs _ (ingest_length_le b acc h)

/-- C2: after any number of ingest calls starting from the reset (empty)
history the detection history has at most 20 entries; a non-empty batch
yields exactly the 20-element truncation of the batch prepended to the old
history (so the batch precedes all older entries, relative order is
preserved and the rear - oldest - entries are the ones evicted), the
batch's first element lands at index 0, and an empty batch leaves the
history unchanged. -/
theorem C2_theorem (batches : List (List Detection)) (b hist : List Detection)
    (hb : b ≠ []) :
    ((batches.foldl (fun acc bb => ingestDetections bb acc) []).length ≤ 20)
    ∧ ingestDetections b hist = (b ++ hist).take 20
    ∧ (ingestDetections b hist).head? = b.head?
    ∧ ingestDetections [] hist = hist := by
  have he : b.isEmpty = false := by
    rcases b with _ | ⟨x, b'⟩
    · exact absurd rfl hb
    · rfl
  refine ⟨foldl_ingest_le batches [] (by simp), ?_, ?_, rfl⟩
  · rw [ingestDetections, he]
    simp
  · rw [ingestDetections, he]
    simp only [Bool.false_eq_true, if_false]
    rcases b with _ | ⟨x, b'⟩
    · exact absurd rfl hb
    · rw [List.cons_append, List.take_succ_cons]
      rfl

/-- C2 witness: one singleton batch ingested into the empty history. -/
theorem C2_witness :
    ((([[⟨"Speech", 4 / 5⟩]] : List (List Detection)).foldl
        (fun acc bb => ingestDetections bb acc) []).length ≤ 20)
    ∧ ingestDetections [⟨"Speech", 4 / 5⟩] []
        = (([⟨"Speech", 4 / 5⟩] : List Detection) ++ []).take 20
    ∧ (ingestDetections [⟨"Speech", 4 / 5⟩] []).head?
        = ([⟨"Speech", 4 / 5⟩] : List Detection).head?
    ∧ ingestDetections [] [] = ([] : List Detection) :=
  C2_theorem [[⟨"Speech", 4 / 5⟩]] [⟨"Speech", 4 / 5⟩] [] (by simp)

/-! Spectrum sampler: claim C3. -/

lemma maybeCapture_run (events : List (Bool × List ℕ)) :
    ∀ s : List (List ℕ),
      events.foldl (fun acc e => maybeCapture acc e.1 e.2) s
        = s ++ (((events.filter (fun e => e.1)).map (fun e => e.2)).take (50 - s.length)) := by
  induction events with
  | nil => intro s; simp
  | cons e rest ih =>
    intro s
    rw [List.foldl_cons]
    rcases e with ⟨a, sn⟩
    by_cases ha : a = true
    · subst ha
      by_cases hlen : s.length < 50
      · have hcap : maybeCapture s true sn = s ++ [sn] := by
          rw [maybeCapture, if_pos ⟨hlen, rfl⟩]
        rw [hcap, ih (s ++ [sn])]
        have h50 : 50 - s.length = (50 - (s ++ [sn]).length) + 1 := by
          rw [List.length_append]
          simp
          omega
        rw [List.filter_cons]
        simp only [decide_eq_true_eq]
        simp only [if_true]
        simp only [List.map_cons]
        rw [h50, List.take_succ_cons, List.append_assoc]
        rfl
      · have hcap : maybeCapture s true sn = s := by
          rw [maybeCapture, if_neg]
          intro hc
          exact hlen hc.1
        rw [hcap, ih s]
        have h50 : 50 - s.length = 0 := by omega
        rw [h50]
        simp
    · have ha2 : a = false := by
        rcases a with _ | _
        · rfl
        · exact absurd rfl ha
      subst ha2
      have hcap : maybeCapture s false sn = s := by
        rw [maybeCapture, if_neg]
        intro hc
        exact Bool.false_ne_true hc.2
      rw [hcap, ih s, List.filter_cons]
      simp

/-- C3: for any sequence of capture attempts (each an accept/reject draw
with its snapshot) starting from the reset sampler, the stored snapshots
are exactly the first 50 accepted snapshots in order - so the store never
exceeds 50 entries, a full store silently drops every further attempt, and
no older entry is ever evicted. -/
theorem C3_theorem (events : List (Bool × List ℕ)) :
    (events.foldl (fun acc e => maybeCapture acc e.1 e.2) [])
      = ((events.filter (fun e => e.1)).map (fun e => e.2)).take 50
    ∧ (events.foldl (fun acc e => maybeCapture acc e.1 e.2) []).length ≤ 50 := by
  have h := maybeCapture_run events []
  simp only [List.length_nil, Nat.sub_zero, List.nil_append] at h
  refine ⟨h, ?_⟩
  rw [h, List.length_take]
  exact min_le_left _ _

/-! Volume metrics: claims C5, C6, C7. -/

lemma rms_replicate (n : ℕ) (hn : n ≠ 0) (a : ℚ) :
    rms (List.replicate n a) = |(a : ℝ)| := by
  have hq : (((List.replicate n a).map (fun x => x * x)).sum
      / ((List.replicate n a).length : ℚ) : ℚ) = a * a := by
    rw [List.map_replicate, List.sum_replicate, List.length_replicate, nsmul_eq_mul]
    field_simp
  rw [rms, hq]
  push_cast
  exact Real.sqrt_mul_self_eq_abs _

/-- C5: the RMS of a 15,600-sample all-zero frame is exactly 0, the RMS of
a 15,600-sample constant frame of value `a` is `|a|`, and a callback that
completes a frame appends exactly the RMS of that frame (the 15,600-sample
prefix of buffer plus burst) to the session's volume-sample sequence. -/
theorem C5_theorem (a : ℚ) (s : AppState) (burst : List ℚ) (accept : Bool)
    (snap : List ℕ) (preds : List (String × ℚ))
    (hl : s.isListening = true) (hm : s.modelLoaded = true) (hc : s.classNames ≠ [])
    (hlen : frameSize ≤ (s.audioBuffer ++ burst).length) :
    rms (List.replicate frameSize (0 : ℚ)) = 0
    ∧ rms (List.replicate frameSize a) = |(a : ℝ)|
    ∧ (step s (Event.audioCallback burst accept snap preds)).volumeHistory
        = s.volumeHistory ++ [rms ((s.audioBuffer ++ burst).take frameSize)] := by
  have hfs : frameSize ≠ 0 := by simp [frameSize]
  refine ⟨?_, rms_replicate frameSize hfs a, ?_⟩
  · rw [rms_replicate frameSize hfs 0]
    simp
  · have hlen2 : frameSize ≤ s.audioBuffer.length + burst.length := by
      simpa using hlen
    simp [step, hl, hm, hc, hlen2]

/-- C5 witness: a concrete listening state with an empty buffer receiving a
full zero frame in one burst. -/
theorem C5_witness :
    rms (List.replicate frameSize (0 : ℚ)) = 0
    ∧ rms (List.replicate frameSize (1 / 2 : ℚ)) = |((1 / 2 : ℚ) : ℝ)|
    ∧ (step (⟨Status.listening, true, ["Speech"], "", [], [], [], [], [], none, true, 0⟩
          : AppState)
        (Event.audioCallback (List.replicate frameSize 0) false [] [])).volumeHistory
      = ([] : List ℝ)
        ++ [rms ((([] : List ℚ) ++ List.replicate frameSize 0).take frameSize)] :=
  C5_theorem (1 / 2)
    ⟨Status.listening, true, ["Speech"], "", [], [], [], [], [], none, true, 0⟩
    (List.replicate frameSize 0) false [] [] rfl rfl (by simp)
    (by simp [-List.reduceReplicate])

lemma le_foldl_max {α : Type} [LinearOrder α] : ∀ (l : List α) (a : α), a ≤ l.foldl max a
  | [], a => le_refl a
  | x :: l, a => le_trans (le_max_left a x) (le_foldl_max l (max a x))

lemma mem_le_foldl_max {α : Type} [LinearOrder α] :
    ∀ (l : List α) (a x : α), x ∈ l → x ≤ l.foldl max a
  | [], _, x, h => absurd h (List.not_mem_nil x)
  | y :: l, a, x, h => by
    rcases List.mem_cons.mp h with rfl | h2
    · exact le_trans (le_max_right a x) (le_foldl_max l (max a x))
    · exact mem_le_foldl_max l (max a y) x h2

lemma maxVolume_ub {α : Type} [LinearOrderedField α] (v : α) (vs : List α) :
    ∀ x ∈ v :: vs, x ≤ maxVolume (v :: vs) := by
  intro x hx
  rcases List.mem_cons.mp hx with rfl | h2
  · exact le_foldl_max vs x
  · exact mem_le_foldl_max vs v x h2

lemma avg_le_max {α : Type} [LinearOrderedField α] (v : α) (vs : List α) :
    (v :: vs).sum / (((v :: vs).length : ℕ) : α) ≤ maxVolume (v :: vs) := by
  have hpos : (0 : α) < (((v :: vs).length : ℕ) : α) := by
    exact_mod_cast Nat.succ_pos vs.length
  rw [div_le_iff₀ hpos]
  have h2 := List.sum_le_card_nsmul (v :: vs) (maxVolume (v :: vs)) (maxVolume_ub v vs)
  rw [nsmul_eq_mul] at h2
  calc (v :: vs).sum ≤ ((v :: vs).length : α) * maxVolume (v :: vs) := h2
    _ = maxVolume (v :: vs) * ((v :: vs).length : α) := by ring

lemma take_sorted_mean_le {α : Type} [LinearOrderedField α] (s : List α)
    (hs : List.Sorted (· ≤ ·) s) (k : ℕ) (hk1 : 1 ≤ k) (hkn : k ≤ s.length) :
    (s.take k).sum / (((s.take k).length : ℕ) : α) ≤ s.sum / ((s.length : ℕ) : α) := by
  have hts : s.take k ++ s.drop k = s := List.take_append_drop k s
  have hlt : (s.take k).length = k := by
    rw [List.length_take]
    exact min_eq_left hkn
  have hpair : ∀ x ∈ s.take k, ∀ y ∈ s.drop k, x ≤ y := by
    have h2 := hs
    rw [← hts] at h2
    exact (List.pairwise_append.mp h2).2.2
  have hdsort : List.Sorted (· ≤ ·) (s.drop k) := by
    have h2 := hs
    rw [← hts] at h2
    exact (List.pairwise_append.mp h2).2.1
  have hklen : s.length = k + (s.drop k).length := by
    conv_lhs => rw [← hts]
    rw [List.length_append, hlt]
  have hkpos : (0 : α) < (k : α) := by exact_mod_cast hk1
  have hslpos : (0 : α) < ((s.length : ℕ) : α) := by
    have h3 : 0 < s.length := lt_of_lt_of_le hk1 hkn
    exact_mod_cast h3
  rw [hlt, div_le_div_iff₀ hkpos hslpos]
  have hsum : s.sum = (s.take k).sum + (s.drop k).sum := by
    conv_lhs => rw [← hts]
    rw [List.sum_append]
  rw [hsum, hklen]
  push_cast
  ring_nf
  rcases hd : s.drop k with _ | ⟨y, d⟩
  · simp
  · have h1 : ∀ x ∈ s.take k, x ≤ y := by
      intro x hx
      exact hpair x hx y (by rw [hd]; exact List.mem_cons_self y d)
    have h2 : (s.take k).sum ≤ (k : α) * y := by
      have h5 := List.sum_le_card_nsmul (s.take k) y h1
      rwa [nsmul_eq_mul, hlt] at h5
    have h3 : ∀ z ∈ s.drop k, y ≤ z := by
      intro z hz
      rw [hd] at hz
      rcases List.mem_cons.mp hz with rfl | hz2
      · exact le_refl z
      · exact List.rel_of_sorted_cons (hd ▸ hdsort) z hz2
    have h4 : (((y :: d).length : ℕ) : α) * y ≤ (y :: d).sum := by
      have h5 := List.card_nsmul_le_sum (s.drop k) y h3
      rw [nsmul_eq_mul] at h5
      rwa [hd] at h5
    nlinarith [h2, h4, hkpos.le,
      mul_le_mul_of_nonneg_right h2 (Nat.cast_nonneg (α := α) (y :: d).length),
      mul_le_mul_of_nonneg_left h4 hkpos.le]

/-- C6: for every non-empty volume-sample sequence (over any ordered field
modelling the JS numbers) the finalized statistics exist and satisfy
noise floor at most average, average at most peak, and
range = peak - minimum, where the noise floor averages the lowest
`⌈10%⌉` of the ascending sort (at least one sample). -/
theorem C6_theorem (α : Type) [LinearOrderedField α] (volumes : List α)
    (hne : volumes ≠ []) :
    ∃ m, noiseMetrics volumes = some m
      ∧ m.noiseFloor ≤ m.avgVolume
      ∧ m.avgVolume ≤ m.peakVolume
      ∧ m.volumeRange = m.peakVolume - minVolume volumes := by
  obtain ⟨v, vs, rfl⟩ := List.exists_cons_of_ne_nil hne
  have hsorted : List.Sorted (· ≤ ·) (List.insertionSort (· ≤ ·) (v :: vs)) :=
    List.sorted_insertionSort (· ≤ ·) (v :: vs)
  have hperm : List.Perm (List.insertionSort (· ≤ ·) (v :: vs)) (v :: vs) :=
    List.perm_insertionSort (· ≤ ·) (v :: vs)
  have hlen : (List.insertionSort (· ≤ ·) (v :: vs)).length = (v :: vs).length :=
    hperm.length_eq
  have hsum : (List.insertionSort (· ≤ ·) (v :: vs)).sum = (v :: vs).sum :=
    hperm.sum_eq
  have hk1 : 1 ≤ ((v :: vs).length + 9) / 10 := by
    rw [Nat.le_div_iff_mul_le (by norm_num)]
    have h3 : 1 ≤ (v :: vs).length := List.length_pos.mpr (List.cons_ne_nil v vs)
    omega
  have hkn : ((v :: vs).length + 9) / 10 ≤ (List.insertionSort (· ≤ ·) (v :: vs)).length := by
    rw [hlen]
    have h1 : 1 ≤ (v :: vs).length := List.length_pos.mpr (List.cons_ne_nil v vs)
    have h2 : (v :: vs).length + 9 ≤ 10 * (v :: vs).length := by omega
    calc ((v :: vs).length + 9) / 10 ≤ 10 * (v :: vs).length / 10 :=
          Nat.div_le_div_right h2
      _ = (v :: vs).length := Nat.mul_div_cancel_left _ (by norm_num)
  have hfloor := take_sorted_mean_le (List.insertionSort (· ≤ ·) (v :: vs)) hsorted
    (((v :: vs).length + 9) / 10) hk1 hkn
  rw [hsum, hlen] at hfloor
  exact ⟨_, rfl, hfloor, avg_le_max v vs, rfl⟩

/-- C6 witness: the two-sample rational sequence `[1, 2]`. -/
theorem C6_witness :
    ∃ m, noiseMetrics [(1 : ℚ), 2] = some m
      ∧ m.noiseFloor ≤ m.avgVolume
      ∧ m.avgVolume ≤ m.peakVolume
      ∧ m.volumeRange = m.peakVolume - minVolume [(1 : ℚ), 2] :=
  C6_theorem ℚ [1, 2] (by simp)

/-- C7 (amended): for the volume sequence `[0.01, 0.02, 0.2, 0.03, 0.01]`
with the strict `< 0.01` silence test the finalized metrics are: average
0.054, peak 0.2, range 0.19, silence fraction 0 % (no sample is strictly
below the threshold; samples equal to 0.01 are not silent), and noise
floor 0.01 (mean of the lowest `⌈10% of 5⌉ = 1` sample).  The claim's
40 % silence figure is refuted by the counterexample. -/
theorem C7_theorem :
    noiseMetrics [(1 / 100 : ℚ), 2 / 100, 2 / 10, 3 / 100, 1 / 100]
      = some ⟨27 / 500, 1 / 5, 19 / 100, 0, 1 / 100⟩ := by
  norm_num [noiseMetrics, maxVolume, minVolume, List.insertionSort, List.orderedInsert,
    List.filter_cons, NoiseMetrics.mk.injEq, max_def, min_def]

/-- C7 counterexample: on `[0.01, 0.02, 0.2, 0.03, 0.01]` the code reports
a silence fraction of 0 %, not the claimed 40 % - no sample is strictly
below the 0.01 threshold. -/
theorem C7_counterexample :
    (noiseMetrics [(1 / 100 : ℚ), 2 / 100, 2 / 10, 3 / 100, 1 / 100]).map
        NoiseMetrics.silencePercent ≠ some 40 := by
  norm_num [noiseMetrics, List.insertionSort, List.orderedInsert, List.filter_cons]

/-! Session controller: claims C4, C8, C9, C10. -/

lemma inv_step (s : AppState) (e : Event) (h : ReachInv s) : ReachInv (step s e) := by
  obtain ⟨h1, h2⟩ := h
  cases e with
  | loadModel modelOk namesOk names =>
    by_cases hl : s.isListening = true
    · simp [step, hl]
      exact ⟨h1, h2⟩
    · have hl2 : s.isListening = false := by
        rcases hb : s.isListening with _ | _
        · rfl
        · exact absurd hb hl
      rcases modelOk with _ | _ <;> rcases namesOk with _ | _ <;>
        simp [step, hl2, ReachInv, h2 hl2]
  | startRequest micOk =>
    by_cases hgate : s.status = Status.loading ∨ s.status = Status.listening
        ∨ s.modelLoaded = false
    · simp only [step, if_pos hgate]
      exact ⟨h1, h2⟩
    · simp only [step, if_neg hgate]
      push_neg at hgate
      have hnl : s.status ≠ Status.listening := hgate.2.1
      have hl2 : s.isListening = false := by
        rcases hb : s.isListening with _ | _
        · rfl
        · exact absurd (h1.mp hb) hnl
      by_cases hguard : s.modelLoaded = false ∨ s.classNames = []
      · simp only [if_pos hguard]
        exact ⟨by simpa using h1, by simpa using h2⟩
      · simp only [if_neg hguard]
        rcases micOk with _ | _
        · simp [ReachInv, hl2, h2 hl2]
        · simp [ReachInv, hl2, h2 hl2]
  | audioCallback burst accept snap preds =>
    by_cases hl : s.isListening = false
    · simp [step, hl]
      exact ⟨h1, h2⟩
    · have hl2 : s.isListening = true := by
        rcases hb : s.isListening with _ | _
        · exact absurd hb hl
        · rfl
      have hst : s.status = Status.listening := h1.mp hl2
      simp only [step, hl2]
      simp only [Bool.true_eq_false, if_false]
      split_ifs <;> simp [ReachInv, hl2, hst]
  | stopRequest =>
    by_cases hst : s.status = Status.listening
    · simp [step, hst, ReachInv]
    · simp only [step, if_pos hst]
      exact ⟨h1, h2⟩

lemma inv_foldl : ∀ (events : List Event) (s : AppState),
    ReachInv s → ReachInv (events.foldl step s)
  | [], _, h => h
  | e :: es, s, h => inv_foldl es _ (inv_step s e h)

lemma inv_runEvents (events : List Event) : ReachInv (runEvents events) := by
  have hbase : ReachInv initState := by
    constructor
    · constructor
      · intro h; exact absurd h (by simp [initState])
      · intro h; exact absurd h (by simp [initState])
    · intro _; exact ⟨rfl, rfl⟩
  exact inv_foldl events initState hbase

/-- C4 (amended): whenever a start request succeeds from a reachable
non-listening state, the state entering `listening` has an empty sample
buffer and volume history (cleared by the previous stop, not by the start),
and the start request itself clears the snapshot store and the displayed
spectrum - but the detection history is NOT reset: it keeps exactly the
detections of the previous session (`setDetections([])` is never called). -/
theorem C4_theorem (events : List Event)
    (h1 : (runEvents events).status ≠ Status.listening)
    (h2 : (step (runEvents events) (Event.startRequest true)).status = Status.listening) :
    (step (runEvents events) (Event.startRequest true)).audioBuffer = []
    ∧ (step (runEvents events) (Event.startRequest true)).volumeHistory = []
    ∧ (step (runEvents events) (Event.startRequest true)).snapshots = []
    ∧ (step (runEvents events) (Event.startRequest true)).spectrumData = []
    ∧ (step (runEvents events) (Event.startRequest true)).detections
        = (runEvents events).detections := by
  obtain ⟨hi1, hi2⟩ := inv_runEvents events
  have hl : (runEvents events).isListening = false := by
    rcases hb : (runEvents events).isListening with _ | _
    · rfl
    · exact absurd (hi1.mp hb) h1
  obtain ⟨hbuf, hvol⟩ := hi2 hl
  by_cases hgate : (runEvents events).status = Status.loading
      ∨ (runEvents events).status = Status.listening
      ∨ (runEvents events).modelLoaded = false
  · rw [step, if_pos hgate] at h2
    exact absurd h2 h1
  · by_cases hguard : (runEvents events).modelLoaded = false
        ∨ (runEvents events).classNames = []
    · rw [step, if_neg hgate, if_pos hguard] at h2
      exact absurd h2 h1
    · simp only [step, if_neg hgate, if_neg hguard]
      exact ⟨hbuf, hvol, rfl, rfl, rfl⟩

/-- C4 witness: the first successful start after a successful model load. -/
theorem C4_witness :
    (step (runEvents [Event.loadModel true true ["Speech"]])
        (Event.startRequest true)).audioBuffer = []
    ∧ (step (runEvents [Event.loadModel true true ["Speech"]])
        (Event.startRequest true)).volumeHistory = []
    ∧ (step (runEvents [Event.loadModel true true ["Speech"]])
        (Event.startRequest true)).snapshots = []
    ∧ (step (runEvents [Event.loadModel true true ["Speech"]])
        (Event.startRequest true)).spectrumData = []
    ∧ (step (runEvents [Event.loadModel true true ["Speech"]])
        (Event.startRequest true)).detections
      = (runEvents [Event.loadModel true true ["Speech"]]).detections :=
  C4_theorem [Event.loadModel true true ["Speech"]] (by decide) (by decide)

/-- C4 counterexample: a session that detected one sound, a stop, and a
second successful start.  The second session enters `listening` with the
previous session's detection still at index 0 - the detection history is
not reset on the Loading-to-Listening transition, refuting the claim that
all four components are empty at that moment. -/
theorem C4_counterexample :
    (runEvents [Event.loadModel true true ["Speech"], Event.startRequest true,
      Event.audioCallback (List.replicate 15600 0) false [] [("Speech", 4 / 5)],
      Event.stopRequest, Event.startRequest true]).status = Status.listening
    ∧ (runEvents [Event.loadModel true true ["Speech"], Event.startRequest true,
      Event.audioCallback (List.replicate 15600 0) false [] [("Speech", 4 / 5)],
      Event.stopRequest, Event.startRequest true]).detections ≠ [] := by
  have h0 : runEvents [Event.loadModel true true ["Speech"], Event.startRequest true,
      Event.audioCallback (List.replicate 15600 0) false [] [("Speech", 4 / 5)],
      Event.stopRequest, Event.startRequest true]
    = step (step (step (step (step initState (Event.loadModel true true ["Speech"]))
        (Event.startRequest true))
        (Event.audioCallback (List.replicate 15600 0) false [] [("Speech", 4 / 5)]))
        Event.stopRequest) (Event.startRequest true) := by
    simp only [runEvents, List.foldl_cons, List.foldl_nil]
  have h1 : step initState (Event.loadModel true true ["Speech"])
      = ⟨Status.idle, true, ["Speech"], "", [], [], [], [], [], none, false, 0⟩ := by
    rw [step_load_ok _ _ rfl]; rfl
  have h2 : step (⟨Status.idle, true, ["Speech"], "", [], [], [], [], [], none, false, 0⟩
        : AppState) (Event.startRequest true)
      = ⟨Status.listening, true, ["Speech"], "", [], [], [], [], [], none, true, 0⟩ := by
    rw [step_start_ok _ (by decide) (by decide) rfl (by decide)]
  have h3 : step (⟨Status.listening, true, ["Speech"], "", [], [], [], [], [], none, true, 0⟩
        : AppState)
        (Event.audioCallback (List.replicate 15600 0) false [] [("Speech", 4 / 5)])
      = ⟨Status.listening, true, ["Speech"], "", [],
          [rms (List.replicate 15600 0)], [], [],
          [⟨"Speech", 4 / 5⟩], none, true, 1⟩ := by
    rw [step_callback_chunk _ _ _ _ rfl rfl (by decide)
      (by simp [-List.reduceReplicate, frameSize])]
    norm_num [-List.reduceReplicate, ingestDetections, topPredictions,
      List.insertionSort, List.orderedInsert, List.filter_cons, frameSize,
      List.take_of_length_le, List.take_replicate, List.drop_replicate]
  have h4 : step (⟨Status.listening, true, ["Speech"], "", [],
          [rms (List.replicate 15600 0)], [], [],
          [⟨"Speech", 4 / 5⟩], none, true, 1⟩ : AppState) Event.stopRequest
      = ⟨Status.idle, true, ["Speech"], "", [], [], [], [],
          [⟨"Speech", 4 / 5⟩], noiseMetrics [rms (List.replicate 15600 0)], false, 1⟩ := by
    rw [step_stop_apply _ rfl]; rfl
  have h5 : step (⟨Status.idle, true, ["Speech"], "", [], [], [], [],
          [⟨"Speech", 4 / 5⟩], noiseMetrics [rms (List.replicate 15600 0)], false, 1⟩
        : AppState) (Event.startRequest true)
      = ⟨Status.listening, true, ["Speech"], "", [], [], [], [],
          [⟨"Speech", 4 / 5⟩], noiseMetrics [rms (List.replicate 15600 0)], true, 0⟩ := by
    rw [step_start_ok _ (by decide) (by decide) rfl (by decide)]
  rw [h0, h1, h2, h3, h4, h5]
  exact ⟨rfl, by simp⟩

lemma foldl_calls_inv (P : AppState → Prop) :
    ∀ (calls : List CallData),
      (∀ c ∈ calls, ∀ s : AppState, P s → P (step s c.toEvent)) →
      ∀ s : AppState, P s → P (calls.foldl (fun st c => step st c.toEvent) s)
  | [], _, _, h => h
  | c :: cs, hP, s, h =>
    foldl_calls_inv P cs (fun d hd t ht => hP d (List.mem_cons_of_mem c hd) t ht) _
      (hP c (List.mem_cons_self c cs) s h)

lemma sessionInv_step (names : List String) (s : AppState) (c : CallData)
    (h : SessionInv names s) : SessionInv names (step s c.toEvent) := by
  obtain ⟨h1, h2, h3, h4, h5, h6, h7⟩ := h
  simp only [step, CallData.toEvent, h2]
  simp only [Bool.true_eq_false, if_false]
  split_ifs <;>
    refine ⟨h1, rfl, h3, h4, h5, ?_, ?_⟩ <;>
    first
      | exact h7
      | simp [h6]

lemma runSessionPre_start (names : List String) (hn : names ≠ []) :
    step (step initState (Event.loadModel true true names)) (Event.startRequest true)
      = ⟨Status.listening, true, names, "", [], [], [], [], [], none, true, 0⟩ := by
  rw [step_load_ok _ _ rfl]
  rw [step_start_ok _ (by simp) (by simp) rfl (by simpa using hn)]; rfl

lemma sessionInv_pre (names : List String) (hn : names ≠ []) (calls : List CallData) :
    SessionInv names (runSessionPre names calls) := by
  rw [runSessionPre]
  refine foldl_calls_inv (SessionInv names) calls
    (fun c _ s h => sessionInv_step names s c h) _ ?_
  rw [runSessionPre_start names hn]
  exact ⟨rfl, rfl, rfl, rfl, rfl, rfl, fun _ => rfl⟩

/-- C9 (amended): a start request while the classifier is not ready (model
not loaded, or class names missing) is rejected: the status is left
unchanged (Idle stays Idle, Error stays Error - it does not "return to
Idle" from Error), and the sample buffer, volume history, snapshot store,
detection history and displayed spectrum are all untouched; only the error
message is set.  The "returns to Idle" wording of the claim is refuted by
the counterexample. -/
theorem C9_theorem (s : AppState) (micOk : Bool)
    (h : s.modelLoaded = false ∨ s.classNames = []) :
    (step s (Event.startRequest micOk)).status = s.status
    ∧ (step s (Event.startRequest micOk)).audioBuffer = s.audioBuffer
    ∧ (step s (Event.startRequest micOk)).volumeHistory = s.volumeHistory
    ∧ (step s (Event.startRequest micOk)).snapshots = s.snapshots
    ∧ (step s (Event.startRequest micOk)).detections = s.detections
    ∧ (step s (Event.startRequest micOk)).spectrumData = s.spectrumData := by
  by_cases hgate : s.status = Status.loading ∨ s.status = Status.listening
      ∨ s.modelLoaded = false
  · simp [step, if_pos hgate]
  · simp [step, if_neg hgate, if_pos h]

/-- C9 witness: a start request in the mount state, before any model has
loaded. -/
theorem C9_witness :
    (step initState (Event.startRequest true)).status = initState.status
    ∧ (step initState (Event.startRequest true)).audioBuffer = initState.audioBuffer
    ∧ (step initState (Event.startRequest true)).volumeHistory = initState.volumeHistory
    ∧ (step initState (Event.startRequest true)).snapshots = initState.snapshots
    ∧ (step initState (Event.startRequest true)).detections = initState.detections
    ∧ (step initState (Event.startRequest true)).spectrumData = initState.spectrumData :=
  C9_theorem initState true (Or.inl rfl)

/-- C9 counterexample: the model loads but the class-name fetch fails, so
the app is in the Error status with a non-null model; the start button is
enabled, and the start request is refused through the model-ready guard
(the error message becomes "Model not loaded yet") - but the controller
stays in Error, it does not return to Idle as the claim states. -/
theorem C9_counterexample :
    (runEvents [Event.loadModel true false [], Event.startRequest true]).errorMsg
      = "Model not loaded yet"
    ∧ (runEvents [Event.loadModel true false [], Event.startRequest true]).status
      ≠ Status.idle := by
  constructor <;> decide

/-! Claim C10: the sound gate in front of the spectrum sampler. -/

lemma quiet_callback_snapshots (s : AppState) (burst : List ℚ) (accept : Bool)
    (snap : List ℕ) (preds : List (String × ℚ))
    (h : ∀ x ∈ burst, |x| ≤ 1 / 100) :
    (step s (Event.audioCallback burst accept snap preds)).snapshots = s.snapshots := by
  by_cases hl : s.isListening = false
  · simp [step, hl]
  · have hl2 : s.isListening = true := by
      rcases hb : s.isListening with _ | _
      · exact absurd hb hl
      · rfl
    have hq : (burst.any fun x => decide (1 / 100 < |x|)) = false := by
      rw [List.any_eq_false]
      intro x hx
      simp only [decide_eq_true_eq, not_lt]
      exact h x hx
    simp only [step, hl2, Bool.true_eq_false, if_false, hq]
    split_ifs <;> simp_all

lemma callback_fixed_fields (s : AppState) (burst : List ℚ) (accept : Bool)
    (snap : List ℕ) (preds : List (String × ℚ)) :
    (step s (Event.audioCallback burst accept snap preds)).status = s.status
    ∧ (step s (Event.audioCallback burst accept snap preds)).isListening = s.isListening
    ∧ (step s (Event.audioCallback burst accept snap preds)).spectrumData
        = s.spectrumData := by
  by_cases hl : s.isListening = false
  · simp [step, hl]
  · have hl2 : s.isListening = true := by
      rcases hb : s.isListening with _ | _
      · exact absurd hb hl
      · rfl
    simp only [step, hl2, Bool.true_eq_false, if_false]
    split_ifs <;> simp [hl2]

/-- C10: a spectrum snapshot can be captured during a callback only if the
burst has a sample with `|s| > 0.01`: a callback whose samples all have
absolute value at most 0.01 leaves the snapshot store unchanged, whatever
the random draw; consequently a session in which every incoming sample has
absolute value at most 0.01 ends with an empty snapshot store and an empty
finalized spectrum, whatever values the random source produced. -/
theorem C10_theorem (s : AppState) (burst : List ℚ) (accept : Bool) (snap : List ℕ)
    (preds : List (String × ℚ)) (names : List String) (calls : List CallData)
    (hquiet : ∀ x ∈ burst, |x| ≤ 1 / 100) (hn : names ≠ [])
    (hcalls : ∀ c ∈ calls, ∀ x ∈ c.burst, |x| ≤ 1 / 100) :
    (step s (Event.audioCallback burst accept snap preds)).snapshots = s.snapshots
    ∧ (runSessionPre names calls).snapshots = []
    ∧ (runSession names calls).spectrumData = [] := by
  refine ⟨quiet_callback_snapshots s burst accept snap preds hquiet, ?_⟩
  have hinv : (runSessionPre names calls).status = Status.listening
      ∧ (runSessionPre names calls).snapshots = []
      ∧ (runSessionPre names calls).spectrumData = [] := by
    rw [runSessionPre]
    refine foldl_calls_inv
      (fun t => t.status = Status.listening ∧ t.snapshots = [] ∧ t.spectrumData = [])
      calls ?_ _ ?_
    · intro c hc t ht
      obtain ⟨ht1, ht2, ht3⟩ := ht
      obtain ⟨hf1, _, hf3⟩ := callback_fixed_fields t c.burst c.accept c.snapshot c.preds
      refine ⟨?_, ?_, ?_⟩
      · show (step t c.toEvent).status = Status.listening
        rw [CallData.toEvent, hf1, ht1]
      · show (step t c.toEvent).snapshots = []
        rw [CallData.toEvent, quiet_callback_snapshots t c.burst c.accept c.snapshot c.preds
          (hcalls c hc), ht2]
      · show (step t c.toEvent).spectrumData = []
        rw [CallData.toEvent, hf3, ht3]
    · rw [runSessionPre_start names hn]
      exact ⟨rfl, rfl, rfl⟩
  refine ⟨hinv.2.1, ?_⟩
  have hstop : runSession names calls
      = step (runSessionPre names calls) Event.stopRequest := rfl
  rw [hstop, step_stop_apply _ hinv.1]
  show (if (runSessionPre names calls).snapshots.isEmpty then _ else _) = _
  rw [hinv.2.1]
  simpa using hinv.2.2

/-- C10 witness: a quiet single-sample callback against the mount state,
and a session with no callbacks at all. -/
theorem C10_witness :
    (step initState (Event.audioCallback [] false [] [])).snapshots
        = initState.snapshots
    ∧ (runSessionPre ["Speech"] []).snapshots = []
    ∧ (runSession ["Speech"] []).spectrumData = [] :=
  C10_theorem initState [] false [] [] ["Speech"] [] (by simp) (by simp) (by simp)

lemma ginv_step (s : AppState) (e : Event)
    (h : ReachInv s
      ∧ (s.isListening = true → s.volumeHistory.length = s.frames ∧ s.spectrumData = [])) :
    ReachInv (step s e)
    ∧ ((step s e).isListening = true
        → (step s e).volumeHistory.length = (step s e).frames
          ∧ (step s e).spectrumData = []) := by
  refine ⟨inv_step s e h.1, ?_⟩
  obtain ⟨⟨h1, h2⟩, h3⟩ := h
  cases e with
  | loadModel modelOk namesOk names =>
    by_cases hl : s.isListening = true
    · simp [step, hl]
      exact h3 hl
    · have hl2 : s.isListening = false := by
        rcases hb : s.isListening with _ | _
        · rfl
        · exact absurd hb hl
      rcases modelOk with _ | _ <;> rcases namesOk with _ | _ <;>
        simp [step, hl2]
  | startRequest micOk =>
    by_cases hgate : s.status = Status.loading ∨ s.status = Status.listening
        ∨ s.modelLoaded = false
    · simp only [step, if_pos hgate]
      exact h3
    · simp only [step, if_neg hgate]
      push_neg at hgate
      have hl2 : s.isListening = false := by
        rcases hb : s.isListening with _ | _
        · rfl
        · exact absurd (h1.mp hb) hgate.2.1
      obtain ⟨hbuf, hvol⟩ := h2 hl2
      by_cases hguard : s.modelLoaded = false ∨ s.classNames = []
      · simp only [if_pos hguard]
        intro hll
        exact absurd hll (by simp [hl2])
      · simp only [if_neg hguard]
        rcases micOk with _ | _
        · simp [hl2]
        · simp [hvol]
  | audioCallback burst accept snap preds =>
    by_cases hl : s.isListening = false
    · simp [step, hl]
    · have hl2 : s.isListening = true := by
        rcases hb : s.isListening with _ | _
        · exact absurd hb hl
        · rfl
      obtain ⟨hlen, hspec⟩ := h3 hl2
      simp only [step, hl2, Bool.true_eq_false, if_false]
      split_ifs <;> simp [hl2, hlen, hspec]
  | stopRequest =>
    by_cases hst : s.status = Status.listening
    · simp [step, hst]
    · simp only [step, if_pos hst]
      exact h3

lemma ginv_foldl : ∀ (events : List Event) (s : AppState),
    (ReachInv s
      ∧ (s.isListening = true → s.volumeHistory.length = s.frames ∧ s.spectrumData = []))
    → ReachInv (events.foldl step s)
      ∧ ((events.foldl step s).isListening = true
          → (events.foldl step s).volumeHistory.length = (events.foldl step s).frames
            ∧ (events.foldl step s).spectrumData = [])
  | [], _, h => h
  | e :: es, s, h => ginv_foldl es _ (ginv_step s e h)

lemma ginv_runEvents (events : List Event) :
    ReachInv (runEvents events)
    ∧ ((runEvents events).isListening = true
        → (runEvents events).volumeHistory.length = (runEvents events).frames
          ∧ (runEvents events).spectrumData = []) := by
  refine ginv_foldl events initState ⟨?_, ?_⟩
  · constructor
    · constructor
      · intro h; exact absurd h (by simp [initState])
      · intro h; exact absurd h (by simp [initState])
    · intro _; exact ⟨rfl, rfl⟩
  · intro h
    exact absurd h (by simp [initState])

lemma start_preserves_detections (s : AppState) (micOk : Bool) :
    (step s (Event.startRequest micOk)).detections = s.detections := by
  simp only [step]
  split_ifs <;> rcases micOk with _ | _ <;> rfl

lemma callback_chunk_or_not (t : AppState) (burst : List ℚ) (accept : Bool)
    (snap : List ℕ) (preds : List (String × ℚ)) (hl : t.isListening = true) :
    ((step t (Event.audioCallback burst accept snap preds)).volumeHistory.length
        = t.volumeHistory.length
      ∧ (step t (Event.audioCallback burst accept snap preds)).frames = t.frames
      ∧ (step t (Event.audioCallback burst accept snap preds)).detections = t.detections)
    ∨ ((step t (Event.audioCallback burst accept snap preds)).volumeHistory.length
        = t.volumeHistory.length + 1
      ∧ (step t (Event.audioCallback burst accept snap preds)).frames = t.frames + 1) := by
  simp only [step, hl, Bool.true_eq_false, if_false]
  split_ifs <;> simp

/-- C8 (amended): stopping a session in which zero frames were processed is
not an error, for a session started by a successful start request from any
reachable state: the noise metrics are absent (`none`); the detection
history at stop is exactly the history carried over from before the session
started (no frame means no ingest); hence the summary renders the
no-sounds-detected fallback text exactly when that carried-over history is
empty, as in the app's first session - for later sessions the history
persists (the C4 defect) and the full summary of stale detections is
rendered instead; and the finalized spectrum is empty provided no snapshot
was captured during the session.  The original claim's unconditional
"spectrum is empty" and "fallback summary" conjuncts are both refuted by
the counterexample. -/
theorem C8_theorem (events : List Event) (calls : List CallData) (full : String)
    (hstart : (step (runEvents events) (Event.startRequest true)).status = Status.listening)
    (h0 : (runSessionFromStop (runEvents events) calls).frames = 0) :
    (runSessionFromStop (runEvents events) calls).lastMetrics = none
    ∧ (runSessionFromStop (runEvents events) calls).detections
        = (runEvents events).detections
    ∧ ((runEvents events).detections = []
        → generateSummary (runSessionFromStop (runEvents events) calls).detections full
            = "No sounds were detected during this listening session.")
    ∧ ((runSessionFrom (runEvents events) calls).snapshots = []
        → (runSessionFromStop (runEvents events) calls).spectrumData = []) := by
  have hs0run : step (runEvents events) (Event.startRequest true)
      = runEvents (events ++ [Event.startRequest true]) := by
    rw [runEvents, runEvents, List.foldl_append, List.foldl_cons, List.foldl_nil]
  have hg := ginv_runEvents (events ++ [Event.startRequest true])
  rw [← hs0run] at hg
  have hl0 : (step (runEvents events) (Event.startRequest true)).isListening = true :=
    hg.1.1.mpr hstart
  obtain ⟨hlen0, hspec0⟩ := hg.2 hl0
  have hdet0 : (step (runEvents events) (Event.startRequest true)).detections
      = (runEvents events).detections := start_preserves_detections _ true
  have hQ : (runSessionFrom (runEvents events) calls).status = Status.listening
      ∧ (runSessionFrom (runEvents events) calls).isListening = true
      ∧ (runSessionFrom (runEvents events) calls).spectrumData = []
      ∧ (runSessionFrom (runEvents events) calls).volumeHistory.length
          = (runSessionFrom (runEvents events) calls).frames
      ∧ (step (runEvents events) (Event.startRequest true)).frames
          ≤ (runSessionFrom (runEvents events) calls).frames
      ∧ ((runSessionFrom (runEvents events) calls).frames
            = (step (runEvents events) (Event.startRequest true)).frames
          → (runSessionFrom (runEvents events) calls).detections
              = (runEvents events).detections) := by
    rw [runSessionFrom]
    refine foldl_calls_inv
      (fun t => t.status = Status.listening ∧ t.isListening = true ∧ t.spectrumData = []
        ∧ t.volumeHistory.length = t.frames
        ∧ (step (runEvents events) (Event.startRequest true)).frames ≤ t.frames
        ∧ (t.frames = (step (runEvents events) (Event.startRequest true)).frames
            → t.detections = (runEvents events).detections))
      calls ?_ _ ⟨hstart, hl0, hspec0, hlen0, le_refl _, fun _ => hdet0⟩
    intro c _ t ht
    obtain ⟨ht1, ht2, ht3, ht4, ht5, ht6⟩ := ht
    obtain ⟨hf1, hf2, hf3⟩ := callback_fixed_fields t c.burst c.accept c.snapshot c.preds
    have hfix : (step t c.toEvent).status = t.status
        ∧ (step t c.toEvent).isListening = t.isListening
        ∧ (step t c.toEvent).spectrumData = t.spectrumData := ⟨hf1, hf2, hf3⟩
    rcases callback_chunk_or_not t c.burst c.accept c.snapshot c.preds ht2 with
      ⟨he1, he2, he3⟩ | ⟨he1, he2⟩
    · refine ⟨by rw [hfix.1, ht1], by rw [hfix.2.1, ht2], by rw [hfix.2.2, ht3], ?_, ?_, ?_⟩
      · show (step t c.toEvent).volumeHistory.length = (step t c.toEvent).frames
        rw [CallData.toEvent] at *
        rw [he1, he2, ht4]
      · show _ ≤ (step t c.toEvent).frames
        rw [CallData.toEvent] at *
        rw [he2]
        exact ht5
      · intro hf
        rw [CallData.toEvent] at *
        rw [he3]
        rw [he2] at hf
        exact ht6 hf
    · refine ⟨by rw [hfix.1, ht1], by rw [hfix.2.1, ht2], by rw [hfix.2.2, ht3], ?_, ?_, ?_⟩
      · show (step t c.toEvent).volumeHistory.length = (step t c.toEvent).frames
        rw [CallData.toEvent] at *
        rw [he1, he2, ht4]
      · show _ ≤ (step t c.toEvent).frames
        rw [CallData.toEvent] at *
        rw [he2]
        omega
      · intro hf
        rw [CallData.toEvent] at *
        rw [he2] at hf
        omega
  obtain ⟨hq1, hq2, hq3, hq4, hq5, hq6⟩ := hQ
  have hstop : runSessionFromStop (runEvents events) calls
      = step (runSessionFrom (runEvents events) calls) Event.stopRequest := rfl
  rw [hstop, step_stop_apply _ hq1] at h0 ⊢
  have hfr : (runSessionFrom (runEvents events) calls).frames = 0 := h0
  have hvol : (runSessionFrom (runEvents events) calls).volumeHistory = [] := by
    rw [← List.length_eq_zero, hq4, hfr]
  have hdet : (runSessionFrom (runEvents events) calls).detections
      = (runEvents events).detections := by
    apply hq6
    omega
  refine ⟨?_, ?_, ?_, ?_⟩
  · show noiseMetrics (runSessionFrom (runEvents events) calls).volumeHistory = none
    rw [hvol, noiseMetrics]
  · exact hdet
  · intro hemp
    show generateSummary (runSessionFrom (runEvents events) calls).detections full = _
    rw [hdet, hemp]
    rfl
  · intro hsnap
    show (if (runSessionFrom (runEvents events) calls).snapshots.isEmpty then _ else _) = _
    rw [hsnap]
    simpa using hq3



/-- C8 witness: the app's first session, stopped immediately after a
successful start (the carried-over detection history is empty). -/
theorem C8_witness :
    (runSessionFromStop (runEvents [Event.loadModel true true ["Speech"]]) []).lastMetrics
        = none
    ∧ (runSessionFromStop (runEvents [Event.loadModel true true ["Speech"]]) []).detections
        = (runEvents [Event.loadModel true true ["Speech"]]).detections
    ∧ ((runEvents [Event.loadModel true true ["Speech"]]).detections = []
        → generateSummary
            (runSessionFromStop (runEvents [Event.loadModel true true ["Speech"]]) []).detections
            "full text"
          = "No sounds were detected during this listening session.")
    ∧ ((runSessionFrom (runEvents [Event.loadModel true true ["Speech"]]) []).snapshots = []
        → (runSessionFromStop (runEvents [Event.loadModel true true ["Speech"]]) []).spectrumData
            = []) :=
  C8_theorem [Event.loadModel true true ["Speech"]] [] "full text" (by decide) (by decide)

/-- C8 counterexample, both failing conjuncts of the original claim.
First: one burst of a single sample 0.02 (above the 0.01 sound gate) with
the random draw accepting, then stop - zero frames were processed, yet a
snapshot was captured and the finalized spectrum is non-empty.  Second: a
first session that detected one sound, then a second session stopped with
zero frames processed - the stale detection survives, `generateSummary`
takes the non-empty branch, and the rendered summary is not the
no-sounds-detected fallback. -/
theorem C8_counterexample :
    ((runSession ["Speech"] [⟨[1 / 50], true, [5, 7], []⟩]).frames = 0
      ∧ (runSession ["Speech"] [⟨[1 / 50], true, [5, 7], []⟩]).spectrumData ≠ [])
    ∧ ((runEvents [Event.loadModel true true ["Speech"], Event.startRequest true,
          Event.audioCallback (List.replicate 15600 0) false [] [("Speech", 4 / 5)],
          Event.stopRequest, Event.startRequest true, Event.stopRequest]).frames = 0
      ∧ generateSummary
          (runEvents [Event.loadModel true true ["Speech"], Event.startRequest true,
            Event.audioCallback (List.replicate 15600 0) false [] [("Speech", 4 / 5)],
            Event.stopRequest, Event.startRequest true, Event.stopRequest]).detections
          "full summary text"
        ≠ "No sounds were detected during this listening session.") := by
  constructor
  · have habs : ((100 : ℚ))⁻¹ < |((50 : ℚ))⁻¹| := by
      rw [abs_of_pos] <;> norm_num
    constructor <;>
      simp [runSession, runSessionPre, step, initState, runEvents, habs, frameSize,
        CallData.toEvent, averageSpectrum, List.range_succ, List.take_of_length_le]
  · have h0 : runEvents [Event.loadModel true true ["Speech"], Event.startRequest true,
        Event.audioCallback (List.replicate 15600 0) false [] [("Speech", 4 / 5)],
        Event.stopRequest, Event.startRequest true, Event.stopRequest]
      = step (step (step (step (step (step initState
          (Event.loadModel true true ["Speech"])) (Event.startRequest true))
          (Event.audioCallback (List.replicate 15600 0) false [] [("Speech", 4 / 5)]))
          Event.stopRequest) (Event.startRequest true)) Event.stopRequest := by
      simp only [runEvents, List.foldl_cons, List.foldl_nil]
    have h1 : step initState (Event.loadModel true true ["Speech"])
        = ⟨Status.idle, true, ["Speech"], "", [], [], [], [], [], none, false, 0⟩ := by
      rw [step_load_ok _ _ rfl]; rfl
    have h2 : step (⟨Status.idle, true, ["Speech"], "", [], [], [], [], [], none, false, 0⟩
          : AppState) (Event.startRequest true)
        = ⟨Status.listening, true, ["Speech"], "", [], [], [], [], [], none, true, 0⟩ := by
      rw [step_start_ok _ (by decide) (by decide) rfl (by decide)]
    have h3 : step (⟨Status.listening, true, ["Speech"], "", [], [], [], [], [], none, true, 0⟩
          : AppState)
          (Event.audioCallback (List.replicate 15600 0) false [] [("Speech", 4 / 5)])
        = ⟨Status.listening, true, ["Speech"], "", [],
            [rms (List.replicate 15600 0)], [], [],
            [⟨"Speech", 4 / 5⟩], none, true, 1⟩ := by
      rw [step_callback_chunk _ _ _ _ rfl rfl (by decide)
        (by simp [-List.reduceReplicate, frameSize])]
      norm_num [-List.reduceReplicate, ingestDetections, topPredictions,
        List.insertionSort, List.orderedInsert, List.filter_cons, frameSize,
        List.take_of_length_le, List.take_replicate, List.drop_replicate]
    have h4 : step (⟨Status.listening, true, ["Speech"], "", [],
            [rms (List.replicate 15600 0)], [], [],
            [⟨"Speech", 4 / 5⟩], none, true, 1⟩ : AppState) Event.stopRequest
        = ⟨Status.idle, true, ["Speech"], "", [], [], [], [],
            [⟨"Speech", 4 / 5⟩], noiseMetrics [rms (List.replicate 15600 0)], false, 1⟩ := by
      rw [step_stop_apply _ rfl]; rfl
    have h5 : step (⟨Status.idle, true, ["Speech"], "", [], [], [], [],
            [⟨"Speech", 4 / 5⟩], noiseMetrics [rms (List.replicate 15600 0)], false, 1⟩
          : AppState) (Event.startRequest true)
        = ⟨Status.listening, true, ["Speech"], "", [], [], [], [],
            [⟨"Speech", 4 / 5⟩], noiseMetrics [rms (List.replicate 15600 0)], true, 0⟩ := by
      rw [step_start_ok _ (by decide) (by decide) rfl (by decide)]
    have h6 : step (⟨Status.listening, true, ["Speech"], "", [], [], [], [],
            [⟨"Speech", 4 / 5⟩], noiseMetrics [rms (List.replicate 15600 0)], true, 0⟩
          : AppState) Event.stopRequest
        = ⟨Status.idle, true, ["Speech"], "", [], [], [], [],
            [⟨"Speech", 4 / 5⟩], noiseMetrics ([] : List ℝ), false, 0⟩ := by
      rw [step_stop_apply _ rfl]; rfl
    rw [h0, h1, h2, h3, h4, h5, h6]
    exact ⟨rfl, by simp [generateSummary]⟩

end ClapApp
